import Mathlib

/-!
# Verification of the `projet-gestion-sportive` SPA shell

Shallow embedding of the client-side router (`js/router.js`) and the module
loader of the orchestrator (`js/app.js`).  JavaScript strings are modelled as
`List Char`, JavaScript `Map`s and plain objects used as string-keyed maps as
association lists with `Map.set` / `obj[k] = v` semantics (overwrite in place,
otherwise append), and `async` methods as pure state transformers: every
`await`ed callee in the navigation sequence either never rejects
(`App.navigateToModule` catches all of its own errors) or is a DOM/logging
effect with no router state, so the sequencing collapses to ordinary function
composition.
-/

/-- JavaScript strings, modelled as lists of Unicode code points. -/
abbrev Str := List Char

/-- Coerce a Lean string literal into the `Str` model. -/
def strOf (s : String) : Str := s.data

/-- JavaScript string-keyed map/object lookup (`Map.get` / `obj[k]`). -/
def mapGet {α : Type} (l : List (Str × α)) (k : Str) : Option α :=
  match l with
  | [] => none
  | (k0, v0) :: rest => if k0 = k then some v0 else mapGet rest k

/-- JavaScript string-keyed map/object update (`Map.set` / `obj[k] = v`):
an existing key is overwritten in place, a fresh key is appended, preserving
insertion order as JavaScript does. -/
def mapSet {α : Type} (l : List (Str × α)) (k : Str) (v : α) : List (Str × α) :=
  match l with
  | [] => [(k, v)]
  | (k0, v0) :: rest => if k0 = k then (k0, v) :: rest else (k0, v0) :: mapSet rest k v

/-- A query-string value: JavaScript's `string | true` domain used by
`parseQueryString` / `buildQueryString` (router.js lines 243-272). -/
inductive QVal : Type
  | str (s : Str)
  | tru
deriving DecidableEq

/-- A route descriptor as built by `Router.registerRoute` (router.js 84-94). -/
structure Route where
  id : Str
  path : Str
  module : Str
  title : Str
  description : Str
  icon : Str
  requiresAuth : Bool
  params : List (Str × Str)
  query : List (Str × QVal)
deriving DecidableEq

/-- A navigation-history entry as pushed by `Router.saveToHistory`
(router.js 354-359). -/
structure HistoryEntry where
  id : Str
  params : List (Str × Str)
  query : List (Str × QVal)
  timestamp : Nat
deriving DecidableEq

/-- The router state: the fields of the `Router` object that the embedded
operations read or write.  `defaultModule` stands for
`app.menuConfig?.settings?.defaultModule || 'accueil'` (already collapsed to
its value), `beforeHooks` is the overridable method
`executeBeforeNavigationHooks` (the source's own body returns `true`;
see `defaultBeforeNavigationHooks`), and `now` is the clock read by
`Date.now()` in `saveToHistory`. -/
structure RouterState where
  routes : List (Str × Route)
  currentRoute : Option Route
  history : List HistoryEntry
  maxHistorySize : Nat
  defaultModule : Str
  beforeHooks : Route → Bool
  now : Nat

/-- `Router.checkAuthentication` (router.js 389-393): stubbed in the source to
always return `true`. -/
def checkAuthentication (_ : RouterState) : Bool := true

/-- The body of `Router.executeBeforeNavigationHooks` as written in the source
(router.js 371-375): `return true` unconditionally. -/
def defaultBeforeNavigationHooks : Route → Bool := fun _ => true

/-- Dispatch to the (overridable) pre-navigation hook chain. -/
def executeBeforeNavigationHooks (s : RouterState) (r : Route) : Bool :=
  s.beforeHooks r

/-- `Router.getCurrentRoute` (router.js 191-193). -/
def getCurrentRoute (s : RouterState) : Option Route := s.currentRoute

/-- `Router.hasRoute` (router.js 205-207). -/
def hasRoute (s : RouterState) (routeId : Str) : Bool :=
  (mapGet s.routes routeId).isSome

/-- `Router.getRoute` (router.js 212-214). -/
def getRoute (s : RouterState) (routeId : Str) : Option Route :=
  mapGet s.routes routeId

/-- The object literal pushed by `saveToHistory` (router.js 354-359). -/
def histEntryOf (r : Route) (ts : Nat) : HistoryEntry :=
  { id := r.id, params := r.params, query := r.query, timestamp := ts }

/-- `Router.saveToHistory` (router.js 352-366): guarded push of the given
route followed by a `shift()` when the length exceeds `maxHistorySize`.
The guard is `route && route.id !== this.currentRoute?.id` — when
`currentRoute` is null the optional chain yields `undefined` and the
comparison is true. -/
def saveToHistory (s : RouterState) (route : Option Route) : RouterState :=
  match route with
  | none => s
  | some r =>
    if (match s.currentRoute with
        | some c => decide (r.id ≠ c.id)
        | none => true) then
      let h := s.history ++ [histEntryOf r s.now]
      { s with history := if s.maxHistorySize < h.length then h.tail else h }
    else s

/-- `Router.navigate` (router.js 104-167) with explicit recursion fuel: the
source recurses through `handleNavigationError` (router.js 398-406, fallback
navigation when the failing id differs from the default module) and through
the dead authorization-redirect branch.  The `throw` on an unknown id happens
before any state mutation; the `catch` therefore sees the unmodified state.
`updateURL`, `App.navigateToModule`, the post-navigation hooks, `scrollToTop`
and `emitNavigationEvent` touch no router field (`navigateToModule` catches
every error it raises itself), so the success path ends at the
`currentRoute` update. -/
def navigateFuel : Nat → RouterState → Str → List (Str × Str) → List (Str × QVal) →
    RouterState × Bool
  | 0, s, _, _, _ => (s, false)
  | Nat.succ fuel, s, routeId, params, query =>
    match mapGet s.routes routeId with
    | none =>
      let fallbackRoute := s.defaultModule
      if routeId ≠ fallbackRoute then
        ((navigateFuel fuel s fallbackRoute [] []).1, false)
      else
        (s, false)
    | some route =>
      if route.requiresAuth && !(checkAuthentication s) then
        ((navigateFuel fuel s (strOf "login") [] []).1, false)
      else
        let prepared := { route with params := params, query := query }
        let s1 := saveToHistory s s.currentRoute
        if executeBeforeNavigationHooks s1 prepared then
          ({ s1 with currentRoute := some prepared }, true)
        else
          (s1, false)

/-- `Router.navigate`: fuel 2 covers every chain the source can produce —
the recovery call in `handleNavigationError` targets the default module, and
inside that inner call the unknown-route branch compares the default module
with itself and recurses no further, while the authorization branch is dead
because `checkAuthentication` is constantly true. -/
def navigate (s : RouterState) (routeId : Str) (params : List (Str × Str))
    (query : List (Str × QVal)) : RouterState × Bool :=
  navigateFuel 2 s routeId params query

/-- `Router.goBack` (router.js 172-186): `pop()` the most recent entry and
re-navigate to it (ignoring that navigation's own result), else fall back to
the default module. -/
def goBack (s : RouterState) : RouterState × Bool :=
  match s.history.getLast? with
  | some prev =>
    let s1 := { s with history := s.history.dropLast }
    ((navigate s1 prev.id prev.params prev.query).1, true)
  | none =>
    ((navigate s s.defaultModule [] []).1, false)

/-- The configuration object accepted by `registerRoute`; absent JavaScript
fields are `none`. -/
structure RouteConfig where
  path : Option Str
  module : Option Str
  title : Option Str
  description : Option Str
  icon : Option Str
  requiresAuth : Option Bool
deriving DecidableEq

/-- JavaScript `x || d` for an optional string `x`: the default is taken when
the field is absent or the empty string (both falsy). -/
def orDefault (v : Option Str) (d : Str) : Str :=
  match v with
  | none => d
  | some s => if s = [] then d else s

/-- The path normalization of `registerRoute` (router.js 79-82):
`if (path.startsWith('#')) path = path.substring(1)` — strip one leading
`'#'` if present. -/
def stripLeadHash (p : Str) : Str :=
  if p.head? = some '#' then p.tail else p

/-- The route record built by `registerRoute` (router.js 84-94), given the
non-falsy `module` value `m`. -/
def builtRoute (routeId : Str) (cfg : RouteConfig) (m : Str) : Route :=
  { id := routeId
    path := stripLeadHash (orDefault cfg.path routeId)
    module := m
    title := orDefault cfg.title routeId
    description := orDefault cfg.description []
    icon := orDefault cfg.icon (strOf "fas fa-page")
    requiresAuth := cfg.requiresAuth.getD false
    params := []
    query := [] }

/-- `Router.registerRoute` (router.js 72-99): throws when `config.module` is
falsy (absent or empty), otherwise normalizes the path and `set`s the route
under `routeId`. -/
def registerRoute (s : RouterState) (routeId : Str) (cfg : RouteConfig) :
    Except Str RouterState :=
  match cfg.module with
  | none => Except.error (strOf "Configuration de route invalide pour: " ++ routeId)
  | some m =>
    if m = [] then
      Except.error (strOf "Configuration de route invalide pour: " ++ routeId)
    else
      Except.ok { s with routes := mapSet s.routes routeId (builtRoute routeId cfg m) }

/-- One externally triggerable router operation, for stating invariants over
arbitrary call sequences.  A failed registration leaves the state unchanged
(the source throws before any mutation). -/
inductive RouterOp : Type
  | reg (id : Str) (cfg : RouteConfig)
  | nav (id : Str) (params : List (Str × Str)) (query : List (Str × QVal))
  | back

/-- Apply one operation to the router state. -/
def applyOp (s : RouterState) : RouterOp → RouterState
  | RouterOp.reg id cfg =>
    match registerRoute s id cfg with
    | Except.ok s' => s'
    | Except.error _ => s
  | RouterOp.nav id p q => (navigate s id p q).1
  | RouterOp.back => (goBack s).1

/-- Apply a sequence of operations, left to right. -/
def applyOps (s : RouterState) (ops : List RouterOp) : RouterState :=
  ops.foldl applyOp s

/-- `saveToHistory` called on the current route itself (the only call site,
router.js line 130) is the identity: the push guard compares the passed
route's id with the current route's id, which are the same value. -/
theorem saveToHistory_currentRoute (s : RouterState) :
    saveToHistory s s.currentRoute = s := by
  unfold saveToHistory
  cases h : s.currentRoute with
  | none => rfl
  | some c => simp [h]

/-- Unfolding `navigateFuel` when the target route is registered: the
authorization redirect is dead (`checkAuthentication` is constantly true),
the history snapshot is the identity, and the hook chain decides the result. -/
theorem navigateFuel_found (fuel : Nat) (s : RouterState) (routeId : Str)
    (p : List (Str × Str)) (q : List (Str × QVal)) (r : Route)
    (hreg : mapGet s.routes routeId = some r) :
    navigateFuel (fuel + 1) s routeId p q =
      if s.beforeHooks { r with params := p, query := q } then
        ({ s with currentRoute := some { r with params := p, query := q } }, true)
      else
        (s, false) := by
  conv_lhs => rw [navigateFuel]
  rw [hreg]
  simp [checkAuthentication, executeBeforeNavigationHooks, saveToHistory_currentRoute]

/-- Unfolding `navigateFuel` on an unknown id: the thrown error reaches
`handleNavigationError`, which re-navigates to the default module unless the
failing id already is the default module. -/
theorem navigateFuel_unknown (fuel : Nat) (s : RouterState) (routeId : Str)
    (p : List (Str × Str)) (q : List (Str × QVal))
    (hmiss : mapGet s.routes routeId = none) :
    navigateFuel (fuel + 1) s routeId p q =
      if routeId ≠ s.defaultModule then
        ((navigateFuel fuel s s.defaultModule [] []).1, false)
      else
        (s, false) := by
  conv_lhs => rw [navigateFuel]
  rw [hmiss]

/-- `navigate` can only ever write the `currentRoute` field: the route table,
the history, the bound, the default module, the hook chain and the clock are
left untouched by every branch. -/
theorem navigateFuel_only_current (fuel : Nat) (s : RouterState) (routeId : Str)
    (p : List (Str × Str)) (q : List (Str × QVal)) :
    ∃ c, (navigateFuel fuel s routeId p q).1 = { s with currentRoute := c } := by
  induction fuel generalizing s routeId p q with
  | zero => exact ⟨s.currentRoute, rfl⟩
  | succ n ih =>
    unfold navigateFuel
    cases hreg : mapGet s.routes routeId with
    | none =>
      by_cases hd : routeId = s.defaultModule
      · simpa [hd] using ⟨s.currentRoute, rfl⟩
      · obtain ⟨c, hc⟩ := ih s s.defaultModule [] []
        exact ⟨c, by simp [hd, hc]⟩
    | some r =>
      simp only [checkAuthentication, Bool.not_true, Bool.and_false, if_neg,
        Bool.false_eq_true, not_false_iff]
      rw [saveToHistory_currentRoute]
      by_cases hh : executeBeforeNavigationHooks s { r with params := p, query := q }
      · exact ⟨some { r with params := p, query := q }, by simp [hh]⟩
      · exact ⟨s.currentRoute, by simp [hh]⟩

/-- Well-formedness of the route table: every stored route carries the key it
is stored under — exactly what `registerRoute` establishes (it sets
`route.id = routeId` and stores under `routeId`). -/
def RoutesWF (s : RouterState) : Prop :=
  ∀ k r, mapGet s.routes k = some r → r.id = k

/-- `mapGet` after `mapSet`. -/
theorem mapGet_mapSet {α : Type} (l : List (Str × α)) (k k' : Str) (v : α) :
    mapGet (mapSet l k v) k' = if k = k' then some v else mapGet l k' := by
  induction l with
  | nil =>
    by_cases h : k = k' <;> simp [mapSet, mapGet, h]
  | cons hd tl ih =>
    obtain ⟨k0, v0⟩ := hd
    by_cases h0 : k0 = k
    · subst h0
      by_cases h : k0 = k' <;> simp [mapSet, mapGet, h]
    · simp only [mapSet, if_neg h0, mapGet, ih]
      by_cases h : k0 = k'
      · subst h
        simp [Ne.symm h0, mapGet]
      · simp [h]

/-- Successful registration characterized: it requires a non-falsy module and
only `set`s the built route into the table. -/
theorem registerRoute_ok_iff (s : RouterState) (routeId : Str) (cfg : RouteConfig)
    (s' : RouterState) :
    registerRoute s routeId cfg = Except.ok s' ↔
      ∃ m, cfg.module = some m ∧ m ≠ [] ∧
        s' = { s with routes := mapSet s.routes routeId (builtRoute routeId cfg m) } := by
  cases hm : cfg.module with
  | none => simp [registerRoute, hm]
  | some m =>
    by_cases hme : m = []
    · simp [registerRoute, hm, hme]
    · simp [registerRoute, hm, hme, eq_comm]

/-- `registerRoute` preserves table well-formedness. -/
theorem registerRoute_preserves_wf (s : RouterState) (routeId : Str)
    (cfg : RouteConfig) (s' : RouterState)
    (hok : registerRoute s routeId cfg = Except.ok s')
    (hwf : RoutesWF s) : RoutesWF s' := by
  obtain ⟨m, _, _, hs⟩ := (registerRoute_ok_iff s routeId cfg s').mp hok
  subst hs
  intro k r hk
  simp only [mapGet_mapSet] at hk
  by_cases hkk : routeId = k
  · rw [if_pos hkk] at hk
    cases hk
    exact hkk
  · rw [if_neg hkk] at hk
    exact hwf k r hk

/-- A sample registered route used to instantiate the theorems on a concrete
router state (from the spec's scenario `{id:"accueil", path:"accueil",
module:"accueil"}`). -/
def accueilRoute : Route :=
  { id := strOf "accueil"
    path := strOf "accueil"
    module := strOf "accueil"
    title := strOf "Accueil"
    description := []
    icon := strOf "fas fa-page"
    requiresAuth := false
    params := []
    query := [] }

/-- A second sample route. -/
def otherRoute : Route :=
  { accueilRoute with
    id := strOf "other"
    path := strOf "other"
    module := strOf "other"
    title := strOf "Other" }

/-- A concrete router state: one registered route, no current route, source
defaults everywhere (`maxHistorySize = 50`, default module `accueil`, the
source's hook body). -/
def demoState : RouterState :=
  { routes := [(strOf "accueil", accueilRoute)]
    currentRoute := none
    history := []
    maxHistorySize := 50
    defaultModule := strOf "accueil"
    beforeHooks := defaultBeforeNavigationHooks
    now := 0 }

/-- A concrete state whose current route (`other`) differs from the default
module (`accueil`); both are registered. -/
def cexState : RouterState :=
  { demoState with
    routes := [(strOf "accueil", accueilRoute), (strOf "other", otherRoute)]
    currentRoute := some otherRoute }



/-- C1: for every route id registered in the route table, `navigate(id)` with
any params and query — the authorization check always passes, since
`checkAuthentication` returns true — returns true, and `getCurrentRoute()` is
then non-null with `.id` equal to the id.  The hook chain is the source's own
(`executeBeforeNavigationHooks` returning true). -/
theorem navigate_registered_succeeds (s : RouterState) (routeId : Str)
    (p : List (Str × Str)) (q : List (Str × QVal)) (r : Route)
    (hwf : RoutesWF s)
    (hreg : mapGet s.routes routeId = some r)
    (hhook : s.beforeHooks = defaultBeforeNavigationHooks) :
    (navigate s routeId p q).2 = true ∧
      ∃ cur, getCurrentRoute (navigate s routeId p q).1 = some cur ∧
        cur.id = routeId := by
  have hid := hwf routeId r hreg
  unfold navigate
  rw [navigateFuel_found 1 s routeId p q r hreg]
  refine ⟨by simp [hhook, defaultBeforeNavigationHooks], ?_⟩
  exact ⟨{ r with params := p, query := q },
    by simp [hhook, defaultBeforeNavigationHooks, getCurrentRoute], hid⟩

/-- C1 witness: the demo state has `accueil` registered; navigating there
succeeds and sets the current route's id to `accueil`. -/
theorem navigate_registered_succeeds_witness :
    (navigate demoState (strOf "accueil") [] []).2 = true ∧
      ∃ cur, getCurrentRoute (navigate demoState (strOf "accueil") [] []).1 = some cur ∧
        cur.id = strOf "accueil" :=
  navigate_registered_succeeds demoState (strOf "accueil") [] [] accueilRoute
    (by
      intro k r hk
      simp only [demoState, mapGet] at hk
      by_cases h : strOf "accueil" = k
      · rw [if_pos h] at hk
        cases hk
        exact h
      · rw [if_neg h] at hk
        cases hk)
    (by decide)
    rfl

/-- C2 counterexample: navigating to an unknown id from `cexState` (current
route `other`, default module `accueil`) returns false but the error handler's
fallback navigation moves the current route to `accueil`, so the
current-route pointer does not stay unchanged as the claim states. -/
theorem navigate_unknown_moves_current_cex :
    (navigate cexState (strOf "unknown-id") [] []).2 = false ∧
      getCurrentRoute (navigate cexState (strOf "unknown-id") [] []).1 ≠
        getCurrentRoute cexState ∧
      (navigate cexState (strOf "unknown-id") [] []).1.history = cexState.history := by
  decide

/-- C2 amended: `navigate` on an id absent from the route table returns false
and leaves the history and the route table unchanged, but the caught error
triggers `handleNavigationError`, which re-navigates to the configured
default module; the current-route pointer is therefore only guaranteed
unchanged when the unknown id is the default module itself (then the handler
skips the fallback to avoid recursing). -/
theorem navigate_unknown_amended (s : RouterState) (routeId : Str)
    (p : List (Str × Str)) (q : List (Str × QVal))
    (hmiss : mapGet s.routes routeId = none) :
    (navigate s routeId p q).2 = false ∧
    (navigate s routeId p q).1.history = s.history ∧
    (navigate s routeId p q).1.routes = s.routes ∧
    (routeId = s.defaultModule → (navigate s routeId p q).1 = s) := by
  unfold navigate
  rw [navigateFuel_unknown 1 s routeId p q hmiss]
  by_cases hd : routeId = s.defaultModule
  · simp [hd]
  · obtain ⟨c, hc⟩ := navigateFuel_only_current 1 s s.defaultModule [] []
    simp [hd, hc]

/-- C2 amended witness: instantiated on `cexState` and the unknown id. -/
theorem navigate_unknown_amended_witness :
    (navigate cexState (strOf "unknown-id") [] []).2 = false ∧
    (navigate cexState (strOf "unknown-id") [] []).1.history = cexState.history ∧
    (navigate cexState (strOf "unknown-id") [] []).1.routes = cexState.routes ∧
    (strOf "unknown-id" = cexState.defaultModule →
      (navigate cexState (strOf "unknown-id") [] []).1 = cexState) :=
  navigate_unknown_amended cexState (strOf "unknown-id") [] [] (by decide)

/-- C3 (code bug): from `cexState` the current route is `other`; navigating to
the registered, distinct id `accueil` succeeds and moves the current route,
yet the navigation history stays empty — no `{id, params, query, timestamp}`
entry is appended.  `saveToHistory(this.currentRoute)` (router.js 130) guards
its push with `route.id !== this.currentRoute?.id` while `route` *is*
`this.currentRoute` (not yet reassigned), so the push is unreachable. -/
theorem navigate_away_appends_no_history :
    getCurrentRoute cexState = some otherRoute ∧
    (navigate cexState (strOf "accueil") [] []).2 = true ∧
    (getCurrentRoute (navigate cexState (strOf "accueil") [] []).1).map Route.id ≠
      some otherRoute.id ∧
    (navigate cexState (strOf "accueil") [] []).1.history = [] := by
  decide

/-- C4: when the pre-navigation hook chain vetoes (resolves false) on the
prepared route, `navigate` returns false and no router state is mutated: the
current-route pointer, the history and the route table are exactly as before.
(The history snapshot taken before the hook run is the identity, see
`saveToHistory_currentRoute`.) -/
theorem navigate_hook_veto_no_mutation (s : RouterState) (routeId : Str)
    (p : List (Str × Str)) (q : List (Str × QVal)) (r : Route)
    (hreg : mapGet s.routes routeId = some r)
    (hveto : s.beforeHooks { r with params := p, query := q } = false) :
    (navigate s routeId p q).2 = false ∧
    (navigate s routeId p q).1.currentRoute = s.currentRoute ∧
    (navigate s routeId p q).1.history = s.history ∧
    (navigate s routeId p q).1.routes = s.routes := by
  unfold navigate
  rw [navigateFuel_found 1 s routeId p q r hreg, hveto]
  simp

/-- C4 witness: a state whose hook chain always vetoes. -/
theorem navigate_hook_veto_no_mutation_witness :
    (navigate { demoState with beforeHooks := fun _ => false }
        (strOf "accueil") [] []).2 = false ∧
    (navigate { demoState with beforeHooks := fun _ => false }
        (strOf "accueil") [] []).1.currentRoute =
      ({ demoState with beforeHooks := fun _ => false } : RouterState).currentRoute ∧
    (navigate { demoState with beforeHooks := fun _ => false }
        (strOf "accueil") [] []).1.history =
      ({ demoState with beforeHooks := fun _ => false } : RouterState).history ∧
    (navigate { demoState with beforeHooks := fun _ => false }
        (strOf "accueil") [] []).1.routes =
      ({ demoState with beforeHooks := fun _ => false } : RouterState).routes :=
  navigate_hook_veto_no_mutation _ (strOf "accueil") [] [] accueilRoute
    (by decide) rfl

/-- One `applyOp` step keeps the history length within the bound: navigation
can only write `currentRoute`, registration only the route table, and
`goBack` only pops. -/
theorem applyOp_bound (s : RouterState) (op : RouterOp)
    (h : s.history.length ≤ s.maxHistorySize) :
    (applyOp s op).history.length ≤ (applyOp s op).maxHistorySize := by
  cases op with
  | reg id cfg =>
    simp only [applyOp]
    cases hr : registerRoute s id cfg with
    | error e => exact h
    | ok s' =>
      obtain ⟨m, _, _, hs⟩ := (registerRoute_ok_iff s id cfg s').mp hr
      subst hs
      exact h
  | nav id p q =>
    obtain ⟨c, hc⟩ := navigateFuel_only_current 2 s id p q
    simp only [applyOp, navigate]
    rw [hc]
    exact h
  | back =>
    simp only [applyOp, goBack]
    cases hl : s.history.getLast? with
    | none =>
      obtain ⟨c, hc⟩ := navigateFuel_only_current 2 s s.defaultModule [] []
      simp only [navigate]
      rw [hc]
      exact h
    | some e =>
      obtain ⟨c, hc⟩ :=
        navigateFuel_only_current 2 { s with history := s.history.dropLast }
          e.id e.params e.query
      simp only [navigate]
      rw [hc]
      calc s.history.dropLast.length ≤ s.history.length := by
            simp [List.length_dropLast]
        _ ≤ s.maxHistorySize := h

/-- The bound is preserved over any operation sequence. -/
theorem applyOps_bound (s : RouterState) (ops : List RouterOp)
    (h : s.history.length ≤ s.maxHistorySize) :
    (applyOps s ops).history.length ≤ (applyOps s ops).maxHistorySize := by
  induction ops generalizing s with
  | nil => exact h
  | cons op rest ih => exact ih (applyOp s op) (applyOp_bound s op h)

/-- C6: (a) starting from any state within the bound (in particular the
constructor's empty history with `maxHistorySize = 50`), no sequence of
register/navigate/goBack operations ever pushes the history length past
`maxHistorySize`; (b) `saveToHistory`, at capacity, evicts the oldest entry
first: when its guard passes on a full history, the new history is the old
one minus its head plus the new entry at the end (FIFO). -/
theorem history_bounded_and_fifo :
    (∀ (s : RouterState) (ops : List RouterOp),
        s.history.length ≤ s.maxHistorySize →
        (applyOps s ops).history.length ≤ (applyOps s ops).maxHistorySize) ∧
    (∀ (s : RouterState) (r : Route),
        s.history.length = s.maxHistorySize →
        0 < s.maxHistorySize →
        (∀ c, s.currentRoute = some c → r.id ≠ c.id) →
        (saveToHistory s (some r)).history =
          s.history.tail ++ [histEntryOf r s.now]) := by
  constructor
  · exact applyOps_bound
  · intro s r hlen hpos hne
    have hguard : (match s.currentRoute with
        | some c => decide (r.id ≠ c.id)
        | none => true) = true := by
      cases hc : s.currentRoute with
      | none => rfl
      | some c => simpa using hne c hc
    show (if (match s.currentRoute with
            | some c => decide (r.id ≠ c.id)
            | none => true) then
          let h := s.history ++ [histEntryOf r s.now]
          ({ s with history := if s.maxHistorySize < h.length then h.tail else h } : RouterState)
        else s).history = s.history.tail ++ [histEntryOf r s.now]
    rw [if_pos hguard]
    have hlen2 : s.maxHistorySize < (s.history ++ [histEntryOf r s.now]).length := by
      simp [hlen]
    simp only [if_pos hlen2]
    cases hh : s.history with
    | nil => rw [hh, List.length_nil] at hlen; omega
    | cons a t => simp

/-- A sample history entry. -/
def histEntryDemo : HistoryEntry :=
  { id := strOf "accueil", params := [], query := [], timestamp := 5 }

/-- A state at capacity (bound 1, one entry) with no current route. -/
def fifoState : RouterState :=
  { demoState with history := [histEntryDemo], maxHistorySize := 1 }

/-- C6 witness: a concrete two-step navigation sequence stays within the
bound, and a concrete full history evicts its single (oldest) entry. -/
theorem history_bounded_and_fifo_witness :
    (applyOps demoState
        [RouterOp.nav (strOf "accueil") [] [], RouterOp.back]).history.length ≤
      (applyOps demoState
        [RouterOp.nav (strOf "accueil") [] [], RouterOp.back]).maxHistorySize ∧
    (saveToHistory fifoState (some otherRoute)).history =
      fifoState.history.tail ++ [histEntryOf otherRoute fifoState.now] :=
  ⟨history_bounded_and_fifo.1 demoState _ (by decide),
   history_bounded_and_fifo.2 fifoState otherRoute rfl (by decide)
     (fun c hc => by cases hc)⟩

/-- C7: `goBack()` returns true exactly when a history entry existed; with a
non-empty history it pops the most recent entry and re-navigates to its id
with the saved params and query; with an empty history it returns false and
navigates to the configured default module instead.  The hook chain is the
source's own (always passing). -/
theorem goBack_pops_or_default (s : RouterState)
    (hhook : s.beforeHooks = defaultBeforeNavigationHooks) :
    ((goBack s).2 = true ↔ s.history ≠ []) ∧
    (∀ e r, s.history.getLast? = some e →
        mapGet s.routes e.id = some r →
        (goBack s).1 =
          { s with history := s.history.dropLast,
                   currentRoute := some { r with params := e.params,
                                                 query := e.query } }) ∧
    (s.history = [] →
        (goBack s).2 = false ∧
        ∀ r, mapGet s.routes s.defaultModule = some r →
          getCurrentRoute (goBack s).1 =
            some { r with params := [], query := [] }) := by
  refine ⟨?_, ?_, ?_⟩
  · simp only [goBack]
    cases hl : s.history.getLast? with
    | none =>
      rw [List.getLast?_eq_none_iff] at hl
      simp [hl]
    | some e =>
      have : s.history ≠ [] := by
        intro hnil
        rw [hnil] at hl
        cases hl
      simp [this]
  · intro e r he hr
    simp only [goBack, he]
    unfold navigate
    rw [navigateFuel_found 1 { s with history := s.history.dropLast }
      e.id e.params e.query r hr]
    simp [hhook, defaultBeforeNavigationHooks]
  · intro hnil
    have hl : s.history.getLast? = none := by
      rw [List.getLast?_eq_none_iff]
      exact hnil
    constructor
    · simp [goBack, hl]
    · intro r hr
      simp only [goBack, hl]
      unfold navigate
      rw [navigateFuel_found 1 s s.defaultModule [] [] r hr]
      simp [hhook, defaultBeforeNavigationHooks, getCurrentRoute]

/-- A state with one history entry and current route `other`. -/
def histState : RouterState :=
  { cexState with history := [histEntryDemo] }

/-- C7 witness: from `histState`, `goBack` pops the single entry and lands on
`accueil`; the `cexState` base (empty history) falls back to the default
module with result false. -/
theorem goBack_pops_or_default_witness :
    (goBack histState).2 = true ∧
    (goBack histState).1 =
      { histState with history := [],
                       currentRoute :=
                         some { accueilRoute with params := [], query := [] } } ∧
    (goBack cexState).2 = false ∧
    getCurrentRoute (goBack cexState).1 =
      some { accueilRoute with params := [], query := [] } := by
  have hh := goBack_pops_or_default histState rfl
  have hc := goBack_pops_or_default cexState rfl
  refine ⟨hh.1.mpr (by decide), ?_, (hc.2.2 rfl).1, (hc.2.2 rfl).2 accueilRoute (by decide)⟩
  have := hh.2.1 histEntryDemo accueilRoute rfl (by decide)
  simpa using this

/-- A config whose `path` keeps a second `'#'` behind the stripped one. -/
def hashCfg : RouteConfig :=
  { path := some (strOf "##a")
    module := some (strOf "m")
    title := none
    description := none
    icon := none
    requiresAuth := none }

/-- The state after registering `hashCfg` under id `r`. -/
def hashState : RouterState :=
  applyOps demoState [RouterOp.reg (strOf "r") hashCfg]

/-- C9 counterexample: `registerRoute` strips only ONE leading `'#'`, so a
config path of `##a` stores the path `#a`, which still begins with the route
marker — the claimed invariant fails for arbitrary `config.path` values. -/
theorem registerRoute_double_hash_cex :
    (mapGet hashState.routes (strOf "r")).map Route.path = some (strOf "#a") ∧
      (strOf "#a").head? = some '#' := by
  decide

/-- Stored paths have no leading marker: an invariant over the route table. -/
def NoLeadHash (s : RouterState) : Prop :=
  ∀ k r, mapGet s.routes k = some r → r.path.head? ≠ some '#'

/-- A registration input whose effective path (`config.path || id`) does not
begin with a doubled route marker; non-registration operations impose
nothing. -/
def RegSingleHash : RouterOp → Prop
  | RouterOp.reg id cfg => (orDefault cfg.path id).take 2 ≠ ['#', '#']
  | _ => True

/-- Stripping one leading marker removes every leading marker as long as the
input did not start with two. -/
theorem stripLeadHash_head (p : Str) (h : p.take 2 ≠ ['#', '#']) :
    (stripLeadHash p).head? ≠ some '#' := by
  unfold stripLeadHash
  by_cases hp : p.head? = some '#'
  · rw [if_pos hp]
    cases p with
    | nil => cases hp
    | cons c t =>
      simp only [List.head?_cons, Option.some.injEq] at hp
      subst hp
      cases t with
      | nil => simp
      | cons c2 t2 =>
        simp only [List.tail_cons, List.head?_cons, ne_eq, Option.some.injEq]
        intro hc2
        subst hc2
        exact h rfl
  · rw [if_neg hp]
    exact hp

/-- One operation preserves the no-leading-marker invariant (when a
registration respects `RegSingleHash`). -/
theorem applyOp_noLeadHash (s : RouterState) (op : RouterOp)
    (hinv : NoLeadHash s) (hop : RegSingleHash op) : NoLeadHash (applyOp s op) := by
  cases op with
  | reg id cfg =>
    simp only [applyOp]
    cases hr : registerRoute s id cfg with
    | error e => exact hinv
    | ok s' =>
      obtain ⟨m, _, _, hs⟩ := (registerRoute_ok_iff s id cfg s').mp hr
      subst hs
      intro k r hk
      simp only [mapGet_mapSet] at hk
      by_cases hkk : id = k
      · rw [if_pos hkk] at hk
        cases hk
        exact stripLeadHash_head (orDefault cfg.path id) hop
      · rw [if_neg hkk] at hk
        exact hinv k r hk
  | nav id p q =>
    intro k r hk
    obtain ⟨c, hc⟩ := navigateFuel_only_current 2 s id p q
    simp only [applyOp, navigate] at hk
    rw [hc] at hk
    exact hinv k r hk
  | back =>
    intro k r hk
    simp only [applyOp, goBack] at hk
    cases hl : s.history.getLast? with
    | none =>
      rw [hl] at hk
      obtain ⟨c, hc⟩ := navigateFuel_only_current 2 s s.defaultModule [] []
      simp only [navigate] at hk
      rw [hc] at hk
      exact hinv k r hk
    | some e =>
      rw [hl] at hk
      obtain ⟨c, hc⟩ :=
        navigateFuel_only_current 2 { s with history := s.history.dropLast }
          e.id e.params e.query
      simp only [navigate] at hk
      rw [hc] at hk
      exact hinv k r hk

/-- The invariant over a whole operation sequence. -/
theorem applyOps_noLeadHash (s : RouterState) (ops : List RouterOp)
    (hinv : NoLeadHash s) (hops : ∀ op ∈ ops, RegSingleHash op) :
    NoLeadHash (applyOps s ops) := by
  induction ops generalizing s with
  | nil => exact hinv
  | cons op rest ih =>
    exact ih (applyOp s op)
      (applyOp_noLeadHash s op hinv (hops op (by simp)))
      (fun o ho => hops o (by simp [ho]))

/-- C9 amended: `registerRoute` fails when `config.module` is absent and
normalizes the stored path by stripping a single leading `'#'`; consequently
every stored path is marker-free only under the proviso that no registration
supplies an effective path beginning with `'##'` (the counterexample
`##a` ↦ `#a` shows one strip is all the code does). -/
theorem registerRoute_normalized_amended :
    (∀ (s : RouterState) (routeId : Str) (cfg : RouteConfig),
        cfg.module = none →
        registerRoute s routeId cfg =
          Except.error (strOf "Configuration de route invalide pour: " ++ routeId)) ∧
    (∀ (s : RouterState) (ops : List RouterOp),
        NoLeadHash s →
        (∀ op ∈ ops, RegSingleHash op) →
        NoLeadHash (applyOps s ops)) := by
  constructor
  · intro s routeId cfg hm
    simp [registerRoute, hm]
  · exact applyOps_noLeadHash

/-- A registration config with a single leading marker in its path. -/
def okCfg : RouteConfig :=
  { path := some (strOf "#p")
    module := some (strOf "m")
    title := none
    description := none
    icon := none
    requiresAuth := none }

/-- A config with no module field at all. -/
def noModCfg : RouteConfig :=
  { path := none
    module := none
    title := none
    description := none
    icon := none
    requiresAuth := none }

/-- C9 amended witness: the module-less config errors out, and a concrete
single-marker registration sequence keeps the table marker-free. -/
theorem registerRoute_normalized_amended_witness :
    registerRoute demoState (strOf "x") noModCfg =
      Except.error (strOf "Configuration de route invalide pour: " ++ strOf "x") ∧
    NoLeadHash (applyOps demoState [RouterOp.reg (strOf "ok") okCfg]) :=
  ⟨registerRoute_normalized_amended.1 demoState (strOf "x") noModCfg rfl,
   registerRoute_normalized_amended.2 demoState [RouterOp.reg (strOf "ok") okCfg]
     (by
       intro k r hk
       simp only [demoState, mapGet] at hk
       by_cases h : strOf "accueil" = k
       · rw [if_pos h] at hk
         cases hk
         decide
       · rw [if_neg h] at hk
         cases hk)
     (by
       intro op hop
       rcases List.mem_singleton.mp hop with rfl
       show (orDefault okCfg.path (strOf "ok")).take 2 ≠ ['#', '#']
       decide)⟩

/-- A behaviour-module instance (`new ModuleClass()` in app.js 243); its
internals are irrelevant to the cache claims, only its identity matters. -/
abbrev ModInst := Str

/-- The external collaborators of `App.loadModule` (app.js 223-263):
`loadVersionedFile('templates/modules/<id>.html', 'html')` and the combined
`loadVersionedScript('js/modules/<id>.js')` + global-constructor lookup +
instantiation (whose failure the source tolerates with a warning). -/
structure AppEnv where
  loadTemplate : Str → Except Str Str
  loadScript : Str → Except Str (Option ModInst)

/-- A module-cache entry `{html, instance}` (app.js 252-255). -/
structure CacheEntry where
  html : Str
  inst : Option ModInst
deriving DecidableEq

/-- The slice of `App` state that `loadModule`/`clearCache` touch:
`this.loadedModules`, the module cache keyed by module id. -/
structure AppState where
  loadedModules : List (Str × CacheEntry)

/-- The instance produced by the script step of a cache miss: on any script
error the instance stays null (app.js 236-247). -/
def scriptInst (env : AppEnv) (moduleId : Str) : Option ModInst :=
  match env.loadScript moduleId with
  | Except.ok i => i
  | Except.error _ => none

/-- `App.loadModule` (app.js 223-263).  Returns the new state, the rendered
`{html, instance}` (or the wrapped error), and the number of network requests
performed by this call: a cache hit renders the cached entry with no fetch; a
miss always issues the template request and the script request (the template
promise is started first, the script is awaited before the template), then
caches `{html, instance}` before rendering; a template failure is re-thrown
wrapped, with nothing cached. -/
def loadModule (env : AppEnv) (s : AppState) (moduleId : Str) :
    AppState × Except Str CacheEntry × Nat :=
  match mapGet s.loadedModules moduleId with
  | some cached => (s, Except.ok cached, 0)
  | none =>
    match env.loadTemplate moduleId with
    | Except.error e =>
      (s, Except.error (strOf "Erreur lors du chargement du module " ++ moduleId ++
        strOf ": " ++ e), 2)
    | Except.ok html =>
      let entry : CacheEntry := { html := html, inst := scriptInst env moduleId }
      ({ s with loadedModules := mapSet s.loadedModules moduleId entry },
        Except.ok entry, 2)

/-- `App.clearCache` (app.js 384-387). -/
def clearCache (s : AppState) : AppState :=
  { s with loadedModules := [] }

/-- A cache hit returns the cached entry without touching state or network. -/
theorem loadModule_hit (env : AppEnv) (s : AppState) (moduleId : Str)
    (cached : CacheEntry)
    (hhit : mapGet s.loadedModules moduleId = some cached) :
    loadModule env s moduleId = (s, Except.ok cached, 0) := by
  simp [loadModule, hhit]

/-- A cache miss performs exactly the two requests, whatever their outcome. -/
theorem loadModule_miss_count (env : AppEnv) (s : AppState) (moduleId : Str)
    (hmiss : mapGet s.loadedModules moduleId = none) :
    (loadModule env s moduleId).2.2 = 2 := by
  simp only [loadModule, hmiss]
  cases ht : env.loadTemplate moduleId <;> simp

/-- A successful cache miss stores `{html, instance}` before rendering it. -/
theorem loadModule_miss_ok (env : AppEnv) (s : AppState) (moduleId : Str)
    (html : Str)
    (hmiss : mapGet s.loadedModules moduleId = none)
    (hok : env.loadTemplate moduleId = Except.ok html) :
    loadModule env s moduleId =
      ({ s with
          loadedModules :=
            mapSet s.loadedModules moduleId
              ({ html := html, inst := scriptInst env moduleId } : CacheEntry) },
        Except.ok ({ html := html, inst := scriptInst env moduleId } : CacheEntry),
        2) := by
  simp [loadModule, hmiss, hok]

/-- C8: `loadModule` is cache-first — once a first call has succeeded (so the
entry is stored), a second call for the same module id returns the very same
markup and instance with zero network requests and an unchanged state; after
`clearCache` the same call fetches again (two requests). -/
theorem loadModule_cache_first (env : AppEnv) (s : AppState) (moduleId : Str)
    (entry : CacheEntry)
    (hfirst : (loadModule env s moduleId).2.1 = Except.ok entry) :
    loadModule env (loadModule env s moduleId).1 moduleId =
      ((loadModule env s moduleId).1, Except.ok entry, 0) ∧
    (loadModule env (clearCache (loadModule env s moduleId).1) moduleId).2.2 = 2 := by
  have hclear : ∀ t : AppState,
      (loadModule env (clearCache t) moduleId).2.2 = 2 := by
    intro t
    exact loadModule_miss_count env (clearCache t) moduleId rfl
  cases hc : mapGet s.loadedModules moduleId with
  | some cached =>
    rw [loadModule_hit env s moduleId cached hc] at hfirst ⊢
    have h2 : cached = entry := by simpa using hfirst
    subst h2
    exact ⟨loadModule_hit env s moduleId cached hc, hclear s⟩
  | none =>
    cases ht : env.loadTemplate moduleId with
    | error e =>
      simp [loadModule, hc, ht] at hfirst
    | ok html =>
      rw [loadModule_miss_ok env s moduleId html hc ht] at hfirst ⊢
      have h2 : ({ html := html, inst := scriptInst env moduleId } : CacheEntry) =
          entry := by simpa using hfirst
      subst h2
      refine ⟨?_, hclear _⟩
      apply loadModule_hit
      simp [mapGet_mapSet]

/-- A concrete environment: every template fetch succeeds with the same
markup, every script fetch fails (tolerated). -/
def demoEnv : AppEnv :=
  { loadTemplate := fun _ => Except.ok (strOf "ok-markup")
    loadScript := fun _ => Except.error (strOf "absent") }

/-- The App state with an empty module cache (the constructor's state). -/
def emptyApp : AppState := { loadedModules := [] }

/-- C8 witness: after a successful first load of `accueil`, the second call
returns the cached markup/instance with zero fetches, and a load after
`clearCache` fetches again. -/
theorem loadModule_cache_first_witness :
    loadModule demoEnv (loadModule demoEnv emptyApp (strOf "accueil")).1
        (strOf "accueil") =
      ((loadModule demoEnv emptyApp (strOf "accueil")).1,
        Except.ok { html := strOf "ok-markup", inst := none }, 0) ∧
    (loadModule demoEnv
        (clearCache (loadModule demoEnv emptyApp (strOf "accueil")).1)
        (strOf "accueil")).2.2 = 2 :=
  loadModule_cache_first demoEnv emptyApp (strOf "accueil")
    { html := strOf "ok-markup", inst := none } rfl

/-!
## Query strings (router.js 243-272)

`parseQueryString` and `buildQueryString` delegate character escaping to the
ECMAScript built-ins `encodeURIComponent` / `decodeURIComponent`.  Those are
embedded below: `encodeURIComponent` passes the `uriUnescaped` characters
(ALPHA / DIGIT / `- _ . ! ~ * ' ( )`) through and percent-encodes the UTF-8
bytes of every other character with uppercase hex; `decodeURIComponent`
percent-decodes byte triples and reassembles UTF-8 sequences.  On malformed
input the built-in throws `URIError`; the embedding is total and treats
malformed sequences best-effort (kept raw or dropped) — every theorem below
only ever decodes well-formed encoder output. -/

/-- The `uriUnescaped` character set of ECMAScript `encodeURIComponent`. -/
def isUnreservedURI (c : Char) : Bool :=
  (65 ≤ c.toNat && c.toNat ≤ 90) ||
  (97 ≤ c.toNat && c.toNat ≤ 122) ||
  (48 ≤ c.toNat && c.toNat ≤ 57) ||
  c.toNat = 45 || c.toNat = 95 || c.toNat = 46 || c.toNat = 33 ||
  c.toNat = 126 || c.toNat = 42 || c.toNat = 39 || c.toNat = 40 || c.toNat = 41

/-- The uppercase hexadecimal digits. -/
def hexDigits : List Char :=
  ['0', '1', '2', '3', '4', '5', '6', '7', '8', '9', 'A', 'B', 'C', 'D', 'E', 'F']

/-- The `n`-th uppercase hex digit. -/
def hexDig (n : Nat) : Char := hexDigits.getD n '0'

/-- The value of a hex digit, upper- or lowercase. -/
def hexVal (c : Char) : Option Nat :=
  if 48 ≤ c.toNat ∧ c.toNat ≤ 57 then some (c.toNat - 48)
  else if 65 ≤ c.toNat ∧ c.toNat ≤ 70 then some (c.toNat - 55)
  else if 97 ≤ c.toNat ∧ c.toNat ≤ 102 then some (c.toNat - 87)
  else none

/-- `%HH` for one byte. -/
def pctByte (b : Nat) : Str := ['%', hexDig (b / 16), hexDig (b % 16)]

/-- `%HH%HH…` for a byte sequence. -/
def pctBytes : List Nat → Str
  | [] => []
  | b :: rest => pctByte b ++ pctBytes rest

/-- The UTF-8 bytes of a code point. -/
def utf8Bytes (n : Nat) : List Nat :=
  if n < 0x80 then [n]
  else if n < 0x800 then [0xC0 + n / 0x40, 0x80 + n % 0x40]
  else if n < 0x10000 then
    [0xE0 + n / 0x1000, 0x80 + (n / 0x40) % 0x40, 0x80 + n % 0x40]
  else
    [0xF0 + n / 0x40000, 0x80 + (n / 0x1000) % 0x40, 0x80 + (n / 0x40) % 0x40,
      0x80 + n % 0x40]

/-- One character of `encodeURIComponent` output. -/
def encChar (c : Char) : Str :=
  if isUnreservedURI c then [c] else pctBytes (utf8Bytes c.toNat)

/-- ECMAScript `encodeURIComponent`. -/
def encodeURIComponent : Str → Str
  | [] => []
  | c :: rest => encChar c ++ encodeURIComponent rest

/-- A token of the percent-decoder: a raw character or a decoded byte. -/
inductive Tok : Type
  | raw (c : Char)
  | byte (b : Nat)
deriving DecidableEq

/-- Percent-decoding pass: each well-formed `%HH` triple becomes a byte,
everything else stays raw. -/
def pct : Str → List Tok
  | [] => []
  | c :: h1 :: h2 :: rest2 =>
    if c = '%' then
      match hexVal h1, hexVal h2 with
      | some a, some b => Tok.byte (16 * a + b) :: pct rest2
      | _, _ => Tok.raw c :: pct (h1 :: h2 :: rest2)
    else Tok.raw c :: pct (h1 :: h2 :: rest2)
  | c :: rest => Tok.raw c :: pct rest

/-- A continuation byte's payload (`10xxxxxx` ↦ `xxxxxx`). -/
def contByte : Tok → Option Nat
  | Tok.byte b => if 0x80 ≤ b ∧ b < 0xC0 then some (b % 0x40) else none
  | Tok.raw _ => none

/-- UTF-8 reassembly pass of the decoder, as a byte-at-a-time state machine.
The state is `none` outside a multi-byte sequence, or `some (need, acc)`
inside one: `need` continuation bytes still expected, `acc` the code point
accumulated so far.  A non-continuation token while a sequence is pending
drops the pending sequence and handles the token afresh (best-effort for
malformed input, which the theorems never produce). -/
def utf8AsmSt : Option (Nat × Nat) → List Tok → Str
  | none, [] => []
  | none, Tok.raw c :: rest => c :: utf8AsmSt none rest
  | none, Tok.byte b :: rest =>
    if b < 0x80 then Char.ofNat b :: utf8AsmSt none rest
    else if b < 0xC0 then utf8AsmSt none rest
    else if b < 0xE0 then utf8AsmSt (some (1, b % 0x20)) rest
    else if b < 0xF0 then utf8AsmSt (some (2, b % 0x10)) rest
    else if b < 0xF8 then utf8AsmSt (some (3, b % 0x8)) rest
    else utf8AsmSt none rest
  | some _, [] => []
  | some (need, acc), t :: rest =>
    match contByte t with
    | some x =>
      if need ≤ 1 then Char.ofNat (acc * 0x40 + x) :: utf8AsmSt none rest
      else utf8AsmSt (some (need - 1, acc * 0x40 + x)) rest
    | none =>
      match t with
      | Tok.raw c => c :: utf8AsmSt none rest
      | Tok.byte b =>
        if b < 0x80 then Char.ofNat b :: utf8AsmSt none rest
        else if b < 0xC0 then utf8AsmSt none rest
        else if b < 0xE0 then utf8AsmSt (some (1, b % 0x20)) rest
        else if b < 0xF0 then utf8AsmSt (some (2, b % 0x10)) rest
        else if b < 0xF8 then utf8AsmSt (some (3, b % 0x8)) rest
        else utf8AsmSt none rest

/-- UTF-8 reassembly of a whole token stream. -/
def utf8Asm (ts : List Tok) : Str := utf8AsmSt none ts

/-- ECMAScript `decodeURIComponent` (well-formed inputs). -/
def decodeURIComponent (s : Str) : Str := utf8Asm (pct s)



/-- JavaScript `String.prototype.split` with a single-character separator:
`"".split(x) = [""]`, separators at the edges produce empty segments. -/
def splitChar (sep : Char) : Str → List Str
  | [] => [[]]
  | c :: rest =>
    if c = sep then
      [] :: splitChar sep rest
    else
      match splitChar sep rest with
      | s :: ss => (c :: s) :: ss
      | [] => [[c]]

/-- `Array.prototype.join('&')`. -/
def joinAmp : List Str → Str
  | [] => []
  | [p] => p
  | p :: ps => p ++ '&' :: joinAmp ps

/-- `Router.parseQueryString`'s loop body (router.js 247-252): split the
segment on `'='`, take the first two parts (`const [key, value] = …`), skip a
falsy key, store `true` for a falsy value (absent or empty), else the decoded
value. -/
def parseSeg (params : List (Str × QVal)) (seg : Str) : List (Str × QVal) :=
  match splitChar '=' seg with
  | [] => params
  | key :: restParts =>
    if key = [] then params
    else
      mapSet params (decodeURIComponent key)
        (match restParts with
         | [] => QVal.tru
         | v :: _ => if v = [] then QVal.tru else QVal.str (decodeURIComponent v))

/-- `Router.parseQueryString` (router.js 243-255). -/
def parseQueryString (queryString : Str) : List (Str × QVal) :=
  if queryString = [] then []
  else (splitChar '&' queryString).foldl parseSeg []

/-- One `key=value` part of `buildQueryString` (router.js 263-268): a `true`
value serializes as the bare encoded key, any other value as
`key=value` with both sides percent-encoded.  (The `null`/`undefined` skip of
the source is outside the `string | true` value domain.) -/
def buildSeg : Str × QVal → Str
  | (k, QVal.tru) => encodeURIComponent k
  | (k, QVal.str v) => encodeURIComponent k ++ '=' :: encodeURIComponent v

/-- `Router.buildQueryString` (router.js 260-272): join the parts with `'&'`
and prepend `'?'` when non-empty. -/
def buildQueryString (params : List (Str × QVal)) : Str :=
  let queryParts := params.map buildSeg
  if queryParts.length > 0 then '?' :: joinAmp queryParts else []





theorem hexVal_hexDig (n : Nat) (h : n < 16) : hexVal (hexDig n) = some n := by
  interval_cases n <;> decide

theorem hexDig_mem (n : Nat) : hexDig n ∈ hexDigits := by
  by_cases h : n < 16
  · interval_cases n <;> decide
  · unfold hexDig
    rw [List.getD_eq_default]
    · decide
    · simp only [hexDigits, List.length]
      omega

theorem isUnreservedURI_hexDig (n : Nat) : isUnreservedURI (hexDig n) = true := by
  have hall : ∀ c ∈ hexDigits, isUnreservedURI c = true := by decide
  exact hall (hexDig n) (hexDig_mem n)

theorem unres_ne_pct (c : Char) (h : isUnreservedURI c = true) : c ≠ '%' := by
  intro hc
  subst hc
  exact absurd h (by decide)

theorem pct_raw (c : Char) (l : Str) (hc : c ≠ '%') :
    pct (c :: l) = Tok.raw c :: pct l := by
  match l with
  | [] => simp [pct, hc]
  | [x] => simp [pct, hc]
  | x :: y :: t => simp [pct, hc]

theorem pct_pctByte (b : Nat) (l : Str) (hb : b < 256) :
    pct (pctByte b ++ l) = Tok.byte b :: pct l := by
  have h1 : hexVal (hexDig (b / 16)) = some (b / 16) := hexVal_hexDig _ (by omega)
  have h2 : hexVal (hexDig (b % 16)) = some (b % 16) := hexVal_hexDig _ (by omega)
  have hb' : 16 * (b / 16) + b % 16 = b := by omega
  simp [pctByte, pct, h1, h2, hb']

theorem pct_pctBytes (bs : List Nat) (l : Str) (hb : ∀ b ∈ bs, b < 256) :
    pct (pctBytes bs ++ l) = bs.map Tok.byte ++ pct l := by
  induction bs with
  | nil => simp [pctBytes]
  | cons b rest ih =>
    have hb0 : b < 256 := hb b (by simp)
    calc pct (pctBytes (b :: rest) ++ l)
        = pct (pctByte b ++ (pctBytes rest ++ l)) := by
          simp [pctBytes, List.append_assoc]
      _ = Tok.byte b :: pct (pctBytes rest ++ l) := pct_pctByte b _ hb0
      _ = Tok.byte b :: (rest.map Tok.byte ++ pct l) := by
          rw [ih (fun x hx => hb x (by simp [hx]))]
      _ = (b :: rest).map Tok.byte ++ pct l := by simp

theorem char_toNat_lt (c : Char) : c.toNat < 0x110000 := by
  have h := c.valid
  rcases h with h | ⟨h1, h2⟩ <;> simp [Char.toNat] <;> omega

theorem utf8Bytes_lt_256 (n : Nat) (hn : n < 0x110000) :
    ∀ b ∈ utf8Bytes n, b < 256 := by
  intro b hb
  unfold utf8Bytes at hb
  split at hb
  · simp at hb
    omega
  · split at hb
    · simp at hb
      rcases hb with rfl | rfl <;> omega
    · split at hb
      · simp at hb
        rcases hb with rfl | rfl | rfl <;> omega
      · simp at hb
        rcases hb with rfl | rfl | rfl | rfl <;> omega

theorem utf8AsmSt_raw (c : Char) (ts : List Tok) :
    utf8AsmSt none (Tok.raw c :: ts) = c :: utf8AsmSt none ts := rfl

theorem utf8AsmSt_ascii (b : Nat) (ts : List Tok) (hb : b < 0x80) :
    utf8AsmSt none (Tok.byte b :: ts) = Char.ofNat b :: utf8AsmSt none ts := by
  rw [utf8AsmSt, if_pos hb]

theorem utf8AsmSt_lead2 (b : Nat) (ts : List Tok)
    (h1 : ¬ b < 0x80) (h2 : ¬ b < 0xC0) (h3 : b < 0xE0) :
    utf8AsmSt none (Tok.byte b :: ts) = utf8AsmSt (some (1, b % 0x20)) ts := by
  rw [utf8AsmSt, if_neg h1, if_neg h2, if_pos h3]

theorem utf8AsmSt_lead3 (b : Nat) (ts : List Tok)
    (h1 : ¬ b < 0x80) (h2 : ¬ b < 0xC0) (h3 : ¬ b < 0xE0) (h4 : b < 0xF0) :
    utf8AsmSt none (Tok.byte b :: ts) = utf8AsmSt (some (2, b % 0x10)) ts := by
  rw [utf8AsmSt, if_neg h1, if_neg h2, if_neg h3, if_pos h4]

theorem utf8AsmSt_lead4 (b : Nat) (ts : List Tok)
    (h1 : ¬ b < 0x80) (h2 : ¬ b < 0xC0) (h3 : ¬ b < 0xE0) (h4 : ¬ b < 0xF0)
    (h5 : b < 0xF8) :
    utf8AsmSt none (Tok.byte b :: ts) = utf8AsmSt (some (3, b % 0x8)) ts := by
  rw [utf8AsmSt, if_neg h1, if_neg h2, if_neg h3, if_neg h4, if_pos h5]

theorem utf8AsmSt_cont (need acc x : Nat) (t : Tok) (ts : List Tok)
    (hc : contByte t = some x) :
    utf8AsmSt (some (need, acc)) (t :: ts) =
      if need ≤ 1 then Char.ofNat (acc * 0x40 + x) :: utf8AsmSt none ts
      else utf8AsmSt (some (need - 1, acc * 0x40 + x)) ts := by
  cases t with
  | raw c => simp [contByte] at hc
  | byte b => rw [utf8AsmSt, hc]

theorem contByte_lo (x : Nat) (hx : x < 0x40) :
    contByte (Tok.byte (0x80 + x)) = some x := by
  have hc : 0x80 ≤ 0x80 + x ∧ 0x80 + x < 0xC0 := by omega
  have hm : (0x80 + x) % 0x40 = x := by omega
  simp [contByte, hc, hm]

theorem utf8Asm_bytes (n : Nat) (hn : n < 0x110000) (ts : List Tok) :
    utf8AsmSt none ((utf8Bytes n).map Tok.byte ++ ts) =
      Char.ofNat n :: utf8AsmSt none ts := by
  unfold utf8Bytes
  by_cases h1 : n < 0x80
  · simp only [if_pos h1, List.map_cons, List.map_nil, List.cons_append, List.nil_append]
    exact utf8AsmSt_ascii n ts h1
  · by_cases h2 : n < 0x800
    · simp only [if_neg h1, if_pos h2, List.map_cons, List.map_nil, List.cons_append,
        List.nil_append]
      rw [utf8AsmSt_lead2 _ _ (by omega) (by omega) (by omega)]
      rw [utf8AsmSt_cont 1 _ _ _ _ (contByte_lo (n % 0x40) (by omega))]
      rw [if_pos (by omega)]
      have harith : (0xC0 + n / 0x40) % 0x20 * 0x40 + n % 0x40 = n := by omega
      rw [harith]
    · by_cases h3 : n < 0x10000
      · simp only [if_neg h1, if_neg h2, if_pos h3, List.map_cons, List.map_nil,
          List.cons_append, List.nil_append]
        rw [utf8AsmSt_lead3 _ _ (by omega) (by omega) (by omega) (by omega)]
        rw [utf8AsmSt_cont 2 _ _ _ _ (contByte_lo (n / 0x40 % 0x40) (by omega))]
        rw [if_neg (by omega)]
        have e21 : (2 : Nat) - 1 = 1 := rfl
        rw [e21]
        rw [utf8AsmSt_cont 1 _ _ _ _ (contByte_lo (n % 0x40) (by omega))]
        rw [if_pos (by omega)]
        have harith : ((0xE0 + n / 0x1000) % 0x10 * 0x40 + n / 0x40 % 0x40) * 0x40 +
            n % 0x40 = n := by omega
        rw [harith]
      · simp only [if_neg h1, if_neg h2, if_neg h3, List.map_cons, List.map_nil,
          List.cons_append, List.nil_append]
        rw [utf8AsmSt_lead4 _ _ (by omega) (by omega) (by omega) (by omega) (by omega)]
        rw [utf8AsmSt_cont 3 _ _ _ _ (contByte_lo (n / 0x1000 % 0x40) (by omega))]
        rw [if_neg (by omega)]
        have e31 : (3 : Nat) - 1 = 2 := rfl
        rw [e31]
        rw [utf8AsmSt_cont 2 _ _ _ _ (contByte_lo (n / 0x40 % 0x40) (by omega))]
        rw [if_neg (by omega)]
        have e21 : (2 : Nat) - 1 = 1 := rfl
        rw [e21]
        rw [utf8AsmSt_cont 1 _ _ _ _ (contByte_lo (n % 0x40) (by omega))]
        rw [if_pos (by omega)]
        have harith : (((0xF0 + n / 0x40000) % 0x8 * 0x40 + n / 0x1000 % 0x40) * 0x40 +
            n / 0x40 % 0x40) * 0x40 + n % 0x40 = n := by omega
        rw [harith]

theorem utf8Asm_pct_encChar (c : Char) (l : Str) :
    utf8AsmSt none (pct (encChar c ++ l)) = c :: utf8AsmSt none (pct l) := by
  unfold encChar
  by_cases hu : isUnreservedURI c
  · rw [if_pos hu]
    rw [List.cons_append, List.nil_append, pct_raw c l (unres_ne_pct c hu)]
    exact utf8AsmSt_raw c (pct l)
  · rw [if_neg hu]
    rw [pct_pctBytes _ _ (utf8Bytes_lt_256 _ (char_toNat_lt c))]
    rw [utf8Asm_bytes _ (char_toNat_lt c)]
    rw [Char.ofNat_toNat]

theorem decode_encode_append (s l : Str) :
    utf8AsmSt none (pct (encodeURIComponent s ++ l)) =
      s ++ utf8AsmSt none (pct l) := by
  induction s with
  | nil => rfl
  | cons c rest ih =>
    calc utf8AsmSt none (pct (encodeURIComponent (c :: rest) ++ l))
        = utf8AsmSt none (pct (encChar c ++ (encodeURIComponent rest ++ l))) := by
          simp [encodeURIComponent, List.append_assoc]
      _ = c :: utf8AsmSt none (pct (encodeURIComponent rest ++ l)) :=
          utf8Asm_pct_encChar c _
      _ = c :: (rest ++ utf8AsmSt none (pct l)) := by rw [ih]
      _ = (c :: rest) ++ utf8AsmSt none (pct l) := rfl

/-- The decoder inverts the encoder. -/
theorem decodeURIComponent_encodeURIComponent (s : Str) :
    decodeURIComponent (encodeURIComponent s) = s := by
  have h := decode_encode_append s []
  rw [List.append_nil] at h
  show utf8AsmSt none (pct (encodeURIComponent s)) = s
  rw [h]
  have h0 : utf8AsmSt none (pct ([] : Str)) = [] := rfl
  rw [h0, List.append_nil]

theorem mem_pctBytes (x : Char) (bs : List Nat) (hx : x ∈ pctBytes bs) :
    x = '%' ∨ ∃ n, x = hexDig n := by
  induction bs with
  | nil => cases hx
  | cons b rest ih =>
    simp only [pctBytes, pctByte, List.cons_append, List.nil_append,
      List.mem_cons] at hx
    rcases hx with rfl | rfl | rfl | hx
    · exact Or.inl rfl
    · exact Or.inr ⟨b / 16, rfl⟩
    · exact Or.inr ⟨b % 16, rfl⟩
    · exact ih hx

theorem mem_encChar (x c : Char) (hx : x ∈ encChar c) :
    isUnreservedURI x = true ∨ x = '%' := by
  unfold encChar at hx
  by_cases hu : isUnreservedURI c
  · rw [if_pos hu] at hx
    rcases List.mem_singleton.mp hx with rfl
    exact Or.inl hu
  · rw [if_neg hu] at hx
    rcases mem_pctBytes x _ hx with h | ⟨n, rfl⟩
    · exact Or.inr h
    · exact Or.inl (isUnreservedURI_hexDig n)

theorem mem_encodeURIComponent (x : Char) (s : Str)
    (hx : x ∈ encodeURIComponent s) :
    isUnreservedURI x = true ∨ x = '%' := by
  induction s with
  | nil => cases hx
  | cons c rest ih =>
    simp only [encodeURIComponent, List.mem_append] at hx
    rcases hx with h | h
    · exact mem_encChar x c h
    · exact ih h

theorem amp_not_mem_enc (s : Str) : '&' ∉ encodeURIComponent s := by
  intro h
  rcases mem_encodeURIComponent _ _ h with h | h
  · exact absurd h (by decide)
  · exact absurd h (by decide)

theorem eqsign_not_mem_enc (s : Str) : '=' ∉ encodeURIComponent s := by
  intro h
  rcases mem_encodeURIComponent _ _ h with h | h
  · exact absurd h (by decide)
  · exact absurd h (by decide)

theorem utf8Bytes_ne_nil (n : Nat) : utf8Bytes n ≠ [] := by
  unfold utf8Bytes
  split
  · simp
  · split
    · simp
    · split <;> simp

theorem encChar_ne_nil (c : Char) : encChar c ≠ [] := by
  unfold encChar
  by_cases hu : isUnreservedURI c
  · simp [hu]
  · rw [if_neg hu]
    cases hb : utf8Bytes c.toNat with
    | nil => exact absurd hb (utf8Bytes_ne_nil _)
    | cons b rest => simp [pctBytes, pctByte]

theorem encodeURIComponent_ne_nil (s : Str) (h : s ≠ []) :
    encodeURIComponent s ≠ [] := by
  cases s with
  | nil => exact absurd rfl h
  | cons c rest =>
    simp only [encodeURIComponent, ne_eq, List.append_eq_nil]
    intro hc
    exact encChar_ne_nil c hc.1

theorem splitChar_not_mem (sep : Char) (a : Str) (h : sep ∉ a) :
    splitChar sep a = [a] := by
  induction a with
  | nil => rfl
  | cons c rest ih =>
    have hc : ¬ c = sep := fun hcc => h (hcc ▸ List.mem_cons_self c rest)
    have hr : sep ∉ rest := fun hm => h (List.mem_cons_of_mem c hm)
    rw [splitChar, if_neg hc, ih hr]

theorem splitChar_append (sep : Char) (a rest : Str) (h : sep ∉ a) :
    splitChar sep (a ++ sep :: rest) = a :: splitChar sep rest := by
  induction a with
  | nil => simp [splitChar]
  | cons c t ih =>
    have hc : ¬ c = sep := fun hcc => h (hcc ▸ List.mem_cons_self c t)
    have ht : sep ∉ t := fun hm => h (List.mem_cons_of_mem c hm)
    rw [List.cons_append, splitChar, if_neg hc, ih ht]

theorem joinAmp_cons2 (p q : Str) (qs : List Str) :
    joinAmp (p :: q :: qs) = p ++ '&' :: joinAmp (q :: qs) := rfl

theorem splitChar_joinAmp (parts : List Str)
    (h : ∀ p ∈ parts, '&' ∉ p) (hne : parts ≠ []) :
    splitChar '&' (joinAmp parts) = parts := by
  induction parts with
  | nil => exact absurd rfl hne
  | cons p ps ih =>
    cases ps with
    | nil => simpa [joinAmp] using splitChar_not_mem '&' p (h p (by simp))
    | cons q qs =>
      rw [joinAmp_cons2, splitChar_append '&' p _ (h p (by simp))]
      rw [ih (fun x hx => h x (by simp [hx])) (by simp)]

theorem joinAmp_ne_nil (p : Str) (ps : List Str) (hp : p ≠ []) :
    joinAmp (p :: ps) ≠ [] := by
  cases ps with
  | nil => simpa [joinAmp]
  | cons q qs =>
    rw [joinAmp_cons2]
    simp

theorem mapSet_fresh {α : Type} (l : List (Str × α)) (k : Str) (v : α)
    (h : ∀ p ∈ l, p.1 ≠ k) : mapSet l k v = l ++ [(k, v)] := by
  induction l with
  | nil => rfl
  | cons hd tl ih =>
    obtain ⟨k0, v0⟩ := hd
    have hk0 : ¬ k0 = k := h (k0, v0) (by simp)
    rw [mapSet, if_neg hk0, List.cons_append,
      ih (fun p hp => h p (by simp [hp]))]

theorem amp_not_mem_buildSeg (p : Str × QVal) : '&' ∉ buildSeg p := by
  obtain ⟨k, v⟩ := p
  cases v with
  | tru => exact amp_not_mem_enc k
  | str s =>
    simp only [buildSeg, List.mem_append, List.mem_cons]
    intro h
    rcases h with h | h | h
    · exact amp_not_mem_enc k h
    · exact absurd h (by decide)
    · exact amp_not_mem_enc s h

theorem buildSeg_ne_nil (p : Str × QVal) (hk : p.1 ≠ []) : buildSeg p ≠ [] := by
  obtain ⟨k, v⟩ := p
  cases v with
  | tru => exact encodeURIComponent_ne_nil k hk
  | str s => simp [buildSeg]

theorem parseSeg_buildSeg (acc : List (Str × QVal)) (k : Str) (v : QVal)
    (hk : k ≠ []) (hv : v ≠ QVal.str []) :
    parseSeg acc (buildSeg (k, v)) = mapSet acc k v := by
  cases v with
  | tru =>
    rw [parseSeg, buildSeg]
    rw [splitChar_not_mem '=' (encodeURIComponent k) (eqsign_not_mem_enc k)]
    show (if encodeURIComponent k = [] then acc
      else mapSet acc (decodeURIComponent (encodeURIComponent k)) QVal.tru) =
      mapSet acc k QVal.tru
    rw [if_neg (encodeURIComponent_ne_nil k hk)]
    rw [decodeURIComponent_encodeURIComponent]
  | str s =>
    have hs : s ≠ [] := fun h => hv (by rw [h])
    rw [parseSeg, buildSeg]
    rw [splitChar_append '=' (encodeURIComponent k) _ (eqsign_not_mem_enc k)]
    rw [splitChar_not_mem '=' (encodeURIComponent s) (eqsign_not_mem_enc s)]
    show (if encodeURIComponent k = [] then acc
      else mapSet acc (decodeURIComponent (encodeURIComponent k))
        (if encodeURIComponent s = [] then QVal.tru
         else QVal.str (decodeURIComponent (encodeURIComponent s)))) =
      mapSet acc k (QVal.str s)
    rw [if_neg (encodeURIComponent_ne_nil k hk)]
    rw [if_neg (encodeURIComponent_ne_nil s hs)]
    rw [decodeURIComponent_encodeURIComponent, decodeURIComponent_encodeURIComponent]

theorem foldl_parseSeg_build (q : List (Str × QVal)) (acc : List (Str × QVal))
    (hkeys : ∀ p ∈ q, p.1 ≠ [])
    (hvals : ∀ p ∈ q, p.2 ≠ QVal.str [])
    (hnodup : (q.map Prod.fst).Nodup)
    (hdisj : ∀ p ∈ q, ∀ p' ∈ acc, p'.1 ≠ p.1) :
    (q.map buildSeg).foldl parseSeg acc = acc ++ q := by
  induction q generalizing acc with
  | nil => simp
  | cons p ps ih =>
    obtain ⟨k, v⟩ := p
    have hnodup' : (k :: List.map Prod.fst ps).Nodup := by
      rw [List.map_cons] at hnodup
      exact hnodup
    have hnd := List.nodup_cons.mp hnodup'
    have hdisj' : ∀ p ∈ ps, ∀ p' ∈ acc ++ [(k, v)], p'.1 ≠ p.1 := by
      intro p hp p' hp'
      rcases List.mem_append.mp hp' with h' | h'
      · exact hdisj p (by simp [hp]) p' h'
      · rcases List.mem_singleton.mp h' with rfl
        intro hkp
        exact hnd.1 (List.mem_map.mpr ⟨p, hp, hkp.symm⟩)
    simp only [List.map_cons, List.foldl_cons]
    rw [parseSeg_buildSeg acc k v (hkeys (k, v) (by simp)) (hvals (k, v) (by simp))]
    rw [mapSet_fresh acc k v (fun p' hp' => hdisj (k, v) (by simp) p' hp')]
    rw [ih (acc ++ [(k, v)]) (fun p hp => hkeys p (by simp [hp]))
        (fun p hp => hvals p (by simp [hp])) hnd.2 hdisj']
    simp

theorem buildQueryString_cons (p : Str × QVal) (ps : List (Str × QVal)) :
    buildQueryString (p :: ps) = '?' :: joinAmp (List.map buildSeg (p :: ps)) := by
  show (if (List.map buildSeg (p :: ps)).length > 0
    then '?' :: joinAmp (List.map buildSeg (p :: ps)) else []) = _
  rw [if_pos (by simp)]

/-- C5 counterexample: the literal composition fails on `{a: "b"}` — the
builder prepends `'?'`, the parser does not strip it, so the parsed key is
`?a`, not `a`. -/
theorem parse_build_not_inverse_cex :
    parseQueryString (buildQueryString [(strOf "a", QVal.str (strOf "b"))]) ≠
      [(strOf "a", QVal.str (strOf "b"))] ∧
    parseQueryString (buildQueryString [(strOf "a", QVal.str (strOf "b"))]) =
      [(strOf "?a", QVal.str (strOf "b"))] := by
  decide

/-- C5 amended: once the leading `'?'` that `buildQueryString` prepends is
removed, `parseQueryString` reconstructs every finite mapping whose keys are
distinct and non-empty and whose values are `true` or non-empty strings (an
empty-string value decodes to `true` instead, see the C10 theorem). -/
theorem parse_build_roundtrip_amended (q : List (Str × QVal))
    (hkeys : ∀ p ∈ q, p.1 ≠ [])
    (hvals : ∀ p ∈ q, p.2 ≠ QVal.str [])
    (hnodup : (q.map Prod.fst).Nodup) :
    parseQueryString ((buildQueryString q).drop 1) = q := by
  cases q with
  | nil => rfl
  | cons p ps =>
    rw [buildQueryString_cons]
    show parseQueryString (joinAmp (List.map buildSeg (p :: ps))) = p :: ps
    have hne : joinAmp (List.map buildSeg (p :: ps)) ≠ [] := by
      rw [List.map_cons]
      exact joinAmp_ne_nil _ _ (buildSeg_ne_nil p (hkeys p (by simp)))
    have hamp : ∀ x ∈ List.map buildSeg (p :: ps), '&' ∉ x := by
      intro x hx
      rcases List.mem_map.mp hx with ⟨pr, _, rfl⟩
      exact amp_not_mem_buildSeg pr
    rw [parseQueryString, if_neg hne, splitChar_joinAmp _ hamp (by simp)]
    have h := foldl_parseSeg_build (p :: ps) [] hkeys hvals hnodup (by simp)
    simpa using h

/-- C5 amended witness: a concrete two-entry mapping with a string value and
a boolean-true value round-trips through build-then-parse (leading `'?'`
removed). -/
theorem parse_build_roundtrip_amended_witness :
    parseQueryString ((buildQueryString
        [(strOf "a", QVal.str (strOf "b")), (strOf "flag", QVal.tru)]).drop 1) =
      [(strOf "a", QVal.str (strOf "b")), (strOf "flag", QVal.tru)] :=
  parse_build_roundtrip_amended _ (by decide) (by decide) (by decide)

theorem pct_no_pct (s : Str) (h : '%' ∉ s) : pct s = s.map Tok.raw := by
  induction s with
  | nil => rfl
  | cons c rest ih =>
    have hc : c ≠ '%' := fun hcc => h (hcc ▸ List.mem_cons_self c rest)
    rw [pct_raw c rest hc, ih (fun hm => h (List.mem_cons_of_mem c hm)), List.map_cons]

theorem utf8Asm_raws (s : Str) : utf8AsmSt none (s.map Tok.raw) = s := by
  induction s with
  | nil => rfl
  | cons c rest ih => rw [List.map_cons, utf8AsmSt_raw, ih]

theorem decodeURIComponent_no_pct (s : Str) (h : '%' ∉ s) :
    decodeURIComponent s = s := by
  show utf8AsmSt none (pct s) = s
  rw [pct_no_pct s h, utf8Asm_raws]

/-- C10: a segment `key=` (empty value) parses to boolean `true`, not to the
empty string — `value ? decodeURIComponent(value) : true` treats the empty
string as falsy; consequently a mapping with an empty-string value is not
reconstructed by parsing its built query string (even after stripping the
`'?'`, the value comes back as `true`). -/
theorem parse_empty_value_true :
    (∀ k : Str, k ≠ [] → '&' ∉ k → '=' ∉ k → '%' ∉ k →
        parseQueryString (k ++ ['=']) = [(k, QVal.tru)]) ∧
    parseQueryString (buildQueryString [(strOf "a", QVal.str [])]) ≠
      [(strOf "a", QVal.str [])] ∧
    parseQueryString ((buildQueryString [(strOf "a", QVal.str [])]).drop 1) =
      [(strOf "a", QVal.tru)] := by
  refine ⟨?_, by decide, by decide⟩
  intro k hk hamp heq hpct
  have hne : k ++ ['='] ≠ [] := by simp
  rw [parseQueryString, if_neg hne]
  have hampall : '&' ∉ k ++ ['='] := by
    simp only [List.mem_append, List.mem_singleton]
    rintro (h | h)
    · exact hamp h
    · exact absurd h (by decide)
  rw [splitChar_not_mem '&' _ hampall]
  show parseSeg [] (k ++ ['=']) = [(k, QVal.tru)]
  rw [parseSeg]
  have hsplit : splitChar '=' (k ++ ['=']) = [k, []] := by
    have h := splitChar_append '=' k [] heq
    simpa [splitChar] using h
  rw [hsplit]
  show (if k = [] then [] else mapSet [] (decodeURIComponent k)
    (if ([] : Str) = [] then QVal.tru else QVal.str (decodeURIComponent []))) =
    [(k, QVal.tru)]
  rw [if_neg hk, decodeURIComponent_no_pct k hpct]
  rfl

/-- C10 witness: `key=` parses to boolean true. -/
theorem parse_empty_value_true_witness :
    parseQueryString (strOf "key" ++ ['=']) = [(strOf "key", QVal.tru)] :=
  parse_empty_value_true.1 (strOf "key") (by decide) (by decide) (by decide)
    (by decide)
